import Mathlib

/-!
Verification of `src/render_helpers/border.rs` (`BorderRenderElement`).

Floating-point values (`f32` / `f64`) are modelled as exact real numbers,
except that a value may also be NaN: Rust's derived `PartialEq` on the
`Parameters` struct compares floats with IEEE `==`, under which NaN is not
equal to anything (itself included).  Finite floats are embedded as exact
reals; rounding (`f64::round`, ties away from zero) is modelled exactly.
-/

noncomputable section

/-- A float (`f32` or `f64`): either NaN or a finite value modelled as an
exact real number.  Infinities are not distinguished from finite values
because nothing in the code branches on them. -/
inductive F32 where
  | nan : F32
  | val : ℝ → F32

/-- Numeric reading of a float; NaN is given the junk value 0 (the numeric
claims below are stated over `val` inputs, where `toReal` is exact). -/
def F32.toReal : F32 → ℝ
  | .nan => 0
  | .val x => x

/-- IEEE `==` on floats, as used by the derived `PartialEq`: NaN is equal
to nothing, finite values compare as reals. -/
def F32.req : F32 → F32 → Prop
  | .val a, .val b => a = b
  | _, _ => False

/-- `Rectangle<i32, Logical>`: integer location and size in logical units. -/
structure Rect where
  x : ℤ
  y : ℤ
  w : ℤ
  h : ℤ
deriving DecidableEq

/-- `Scale<f64>`: per-axis output scale factor. -/
structure Scale2 where
  x : F32
  y : F32

/-- `[f32; 4]` RGBA color. -/
structure Rgba where
  r : F32
  g : F32
  b : F32
  a : F32

/-- `niri_config::CornerRadius`: four per-corner radii
(top-left, top-right, bottom-right, bottom-left). -/
structure CornerRadius where
  top_left : F32
  top_right : F32
  bottom_right : F32
  bottom_left : F32

/-- The `Parameters` struct of `BorderRenderElement`: everything
`update_inner` reads. -/
structure Parameters where
  scale : Scale2
  area : Rect
  gradient_area : Rect
  color_from : Rgba
  color_to : Rgba
  angle : F32
  geometry : Rect
  border_width : F32
  corner_radius : CornerRadius

/-- Derived `PartialEq` on `Scale2` (field-wise IEEE `==`). -/
def Scale2.req (a b : Scale2) : Prop := F32.req a.x b.x ∧ F32.req a.y b.y

/-- Derived `PartialEq` on `Rgba` (field-wise IEEE `==`). -/
def Rgba.req (a b : Rgba) : Prop :=
  F32.req a.r b.r ∧ F32.req a.g b.g ∧ F32.req a.b b.b ∧ F32.req a.a b.a

/-- Derived `PartialEq` on `CornerRadius` (field-wise IEEE `==`). -/
def CornerRadius.req (a b : CornerRadius) : Prop :=
  F32.req a.top_left b.top_left ∧ F32.req a.top_right b.top_right ∧
  F32.req a.bottom_right b.bottom_right ∧ F32.req a.bottom_left b.bottom_left

/-- Derived `PartialEq` on `Parameters`: the structural equality used by
`BorderRenderElement::update` (`self.params == params`). -/
def Parameters.req (p q : Parameters) : Prop :=
  Scale2.req p.scale q.scale ∧
  p.area = q.area ∧
  p.gradient_area = q.gradient_area ∧
  Rgba.req p.color_from q.color_from ∧
  Rgba.req p.color_to q.color_to ∧
  F32.req p.angle q.angle ∧
  p.geometry = q.geometry ∧
  F32.req p.border_width q.border_width ∧
  CornerRadius.req p.corner_radius q.corner_radius

/-- `f64::round`: round to nearest integer, ties away from zero
(Mathlib's `round` rounds ties up, so the negative half is mirrored). -/
def f64round (x : ℝ) : ℤ := if x < 0 then -round (-x) else round x

/-- One coordinate of `to_physical_precise_round`: scale a logical `i32`
coordinate by the per-axis factor and round to the nearest integer,
the result kept as a float. -/
def roundPhys (v : ℤ) (s : ℝ) : ℝ := ((f64round ((v : ℝ) * s) : ℤ) : ℝ)

/-- `glam::Vec3` over exact reals. -/
structure Vec3R where
  x : ℝ
  y : ℝ
  z : ℝ

/-- `glam::Mat3` over exact reals: three column vectors. -/
structure Mat3R where
  x_axis : Vec3R
  y_axis : Vec3R
  z_axis : Vec3R

/-- `Mat3::mul_vec3`. -/
def Mat3R.mulVec (m : Mat3R) (v : Vec3R) : Vec3R :=
  ⟨m.x_axis.x * v.x + m.y_axis.x * v.y + m.z_axis.x * v.z,
   m.x_axis.y * v.x + m.y_axis.y * v.y + m.z_axis.y * v.z,
   m.x_axis.z * v.x + m.y_axis.z * v.y + m.z_axis.z * v.z⟩

/-- `Mat3 * Mat3` (column-major composition: `(a.mul b).mulVec v =
a.mulVec (b.mulVec v)`). -/
def Mat3R.mul (a b : Mat3R) : Mat3R :=
  ⟨a.mulVec b.x_axis, a.mulVec b.y_axis, a.mulVec b.z_axis⟩

/-- `Mat3::from_scale`. -/
def Mat3R.fromScale (s : ℝ × ℝ) : Mat3R :=
  ⟨⟨s.1, 0, 0⟩, ⟨0, s.2, 0⟩, ⟨0, 0, 1⟩⟩

/-- `Mat3::from_translation`. -/
def Mat3R.fromTranslation (t : ℝ × ℝ) : Mat3R :=
  ⟨⟨1, 0, 0⟩, ⟨0, 1, 0⟩, ⟨t.1, t.2, 1⟩⟩

/-- `Mat3::transform_point2`: apply the affine matrix to a 2D point. -/
def Mat3R.transformPoint2 (m : Mat3R) (p : ℝ × ℝ) : ℝ × ℝ :=
  ((m.mulVec ⟨p.1, p.2, 1⟩).x, (m.mulVec ⟨p.1, p.2, 1⟩).y)

/-- `(area.loc - gradient_area.loc).to_f64().to_physical(scale)`. -/
def grad_offset (p : Parameters) : ℝ × ℝ :=
  (((p.area.x - p.gradient_area.x : ℤ) : ℝ) * p.scale.x.toReal,
   ((p.area.y - p.gradient_area.y : ℤ) : ℝ) * p.scale.y.toReal)

/-- `w`: the gradient area's physical width (`gradient_area.size.to_f64()
.to_physical(scale).w`), also passed as the `grad_width` uniform. -/
def grad_w (p : Parameters) : ℝ := (p.gradient_area.w : ℝ) * p.scale.x.toReal

/-- `h`: the gradient area's physical height. -/
def grad_h (p : Parameters) : ℝ := (p.gradient_area.h : ℝ) * p.scale.y.toReal

/-- The gradient-vector computation of `update_inner`, with the direction
vector `(c, s) = Vec2::from_angle(angle)` and the gradient area's physical
size `(w, h)` as inputs: mirror the diagonal's X component depending on the
direction's quadrant, project the diagonal onto the direction
(`project_onto` divides by the direction's squared length), and negate the
result when the direction's Y component is non-positive. -/
def gradVecCore (c s w h : ℝ) : ℝ × ℝ :=
  let diagx : ℝ := if (c < 0 ∧ 0 ≤ s) ∨ (0 ≤ c ∧ s < 0) then -w else w
  let t : ℝ := (diagx * c + h * s) / (c * c + s * s)
  if s ≤ 0 then (-(t * c), -(t * s)) else (t * c, t * s)

/-- `grad_vec` uniform: `gradVecCore` at `Vec2::from_angle(angle) =
(cos angle, sin angle)`. -/
def grad_vec (p : Parameters) : ℝ × ℝ :=
  gradVecCore (Real.cos p.angle.toReal) (Real.sin p.angle.toReal) (grad_w p) (grad_h p)

/-- `area.to_physical_precise_round(scale).loc`. -/
def area_loc (p : Parameters) : ℝ × ℝ :=
  (roundPhys p.area.x p.scale.x.toReal, roundPhys p.area.y p.scale.y.toReal)

/-- `area.to_physical_precise_round(scale).size`. -/
def area_size (p : Parameters) : ℝ × ℝ :=
  (roundPhys p.area.w p.scale.x.toReal, roundPhys p.area.h p.scale.y.toReal)

/-- `geometry.to_physical_precise_round(scale).loc`. -/
def geo_loc (p : Parameters) : ℝ × ℝ :=
  (roundPhys p.geometry.x p.scale.x.toReal, roundPhys p.geometry.y p.scale.y.toReal)

/-- `geometry.to_physical_precise_round(scale).size`, the `geo_size`
uniform. -/
def geo_size (p : Parameters) : ℝ × ℝ :=
  (roundPhys p.geometry.w p.scale.x.toReal, roundPhys p.geometry.h p.scale.y.toReal)

/-- `input_to_geo = Mat3::from_scale(area_size) *
Mat3::from_translation((area_loc - geo_loc) / area_size)`
(component-wise vector division). -/
def input_to_geo (p : Parameters) : Mat3R :=
  Mat3R.mul (Mat3R.fromScale (area_size p))
    (Mat3R.fromTranslation
      (((area_loc p).1 - (geo_loc p).1) / (area_size p).1,
       ((area_loc p).2 - (geo_loc p).2) / (area_size p).2))

/-- Modelled from the spec: `niri_config::CornerRadius::scaled_by` followed
by the `From<CornerRadius> for [f32; 4]` conversion (the implementation
lives in the external `niri_config` crate) — each radius is multiplied by
the factor and the radii come out in the fixed order top-left, top-right,
bottom-right, bottom-left. -/
def CornerRadius.scaled_by (cr : CornerRadius) (f : ℝ) : ℝ × ℝ × ℝ × ℝ :=
  (cr.top_left.toReal * f, cr.top_right.toReal * f,
   cr.bottom_right.toReal * f, cr.bottom_left.toReal * f)

/-- Numeric reading of an RGBA color. -/
def Rgba.toTuple (c : Rgba) : ℝ × ℝ × ℝ × ℝ :=
  (c.r.toReal, c.g.toReal, c.b.toReal, c.a.toReal)

/-- The data `update_inner` hands to `ShaderRenderElement::update`: the
destination rectangle (the logical `area`) plus the nine shader uniforms. -/
structure ResolvedUniforms where
  dst_area : Rect
  color_from : ℝ × ℝ × ℝ × ℝ
  color_to : ℝ × ℝ × ℝ × ℝ
  grad_offset : ℝ × ℝ
  grad_width : ℝ
  grad_vec : ℝ × ℝ
  input_to_geo : Mat3R
  geo_size : ℝ × ℝ
  outer_radius : ℝ × ℝ × ℝ × ℝ
  border_width : ℝ

/-- The pure core of `BorderRenderElement::update_inner`: compute every
uniform from the stored parameters. -/
def resolve (p : Parameters) : ResolvedUniforms where
  dst_area := p.area
  color_from := p.color_from.toTuple
  color_to := p.color_to.toTuple
  grad_offset := grad_offset p
  grad_width := grad_w p
  grad_vec := grad_vec p
  input_to_geo := input_to_geo p
  geo_size := geo_size p
  outer_radius := p.corner_radius.scaled_by p.scale.x.toReal
  border_width := p.border_width.toReal * p.scale.x.toReal

/-- Modelled from the spec: the generic shaded-quad primitive
(`ShaderRenderElement`, external to this core).  It holds the optional
shader program reference, the commit counter, and the currently stored
uniforms; its `update` stores new uniforms and advances the commit counter
(damage/commit versioning), and its `update_shader` swaps only the shader
reference. -/
structure ShaderRenderElement where
  shader : Option ℕ
  commit : ℕ
  resolved : Option ResolvedUniforms

/-- Modelled from the spec: `ShaderRenderElement::empty(kind)` — no bound
shader, zero commits, no uniforms stored. -/
def ShaderRenderElement.empty : ShaderRenderElement := ⟨none, 0, none⟩

/-- Modelled from the spec: `ShaderRenderElement::update_shader` swaps the
active shader program reference and touches nothing else. -/
def ShaderRenderElement.update_shader (q : ShaderRenderElement) (sh : Option ℕ) :
    ShaderRenderElement :=
  { q with shader := sh }

/-- Modelled from the spec: `ShaderRenderElement::update` stores the new
uniform set and advances the commit counter. -/
def ShaderRenderElement.update (q : ShaderRenderElement) (u : ResolvedUniforms) :
    ShaderRenderElement :=
  { q with resolved := some u, commit := q.commit + 1 }

/-- `BorderRenderElement`: the wrapped generic quad plus the cached
parameters. -/
structure BorderRenderElement where
  inner : ShaderRenderElement
  params : Parameters

/-- `BorderRenderElement::update_inner`: push the resolved uniforms into
the wrapped quad. -/
def BorderRenderElement.update_inner (e : BorderRenderElement) : BorderRenderElement :=
  { e with inner := e.inner.update (resolve e.params) }

/-- `BorderRenderElement::new`: start from an empty quad, bind the shader,
store the parameters and compute the uniforms immediately. -/
def BorderRenderElement.new (shader : ℕ) (p : Parameters) : BorderRenderElement :=
  BorderRenderElement.update_inner
    { inner := ShaderRenderElement.empty.update_shader (some shader), params := p }

/-- Default `Parameters` used by `BorderRenderElement::empty`: scale 1,
zero rectangles, transparent colors, angle 0, zero border width and radii. -/
def Parameters.default : Parameters where
  scale := ⟨.val 1, .val 1⟩
  area := ⟨0, 0, 0, 0⟩
  gradient_area := ⟨0, 0, 0, 0⟩
  color_from := ⟨.val 0, .val 0, .val 0, .val 0⟩
  color_to := ⟨.val 0, .val 0, .val 0, .val 0⟩
  angle := .val 0
  geometry := ⟨0, 0, 0, 0⟩
  border_width := .val 0
  corner_radius := ⟨.val 0, .val 0, .val 0, .val 0⟩

/-- `BorderRenderElement::empty`: empty quad, default parameters, no
uniforms computed. -/
def BorderRenderElement.empty : BorderRenderElement :=
  { inner := ShaderRenderElement.empty, params := Parameters.default }

/-- `BorderRenderElement::update_shader`: delegate to the wrapped quad. -/
def BorderRenderElement.update_shader (e : BorderRenderElement) (sh : Option ℕ) :
    BorderRenderElement :=
  { e with inner := e.inner.update_shader sh }

open Classical in
/-- `BorderRenderElement::update`: early-return when the new parameters
are structurally equal (`==`) to the stored ones; otherwise store them and
recompute the uniforms. -/
def BorderRenderElement.update (e : BorderRenderElement) (p : Parameters) :
    BorderRenderElement :=
  if Parameters.req e.params p then e
  else BorderRenderElement.update_inner { e with params := p }

/-- `BorderRenderElement::has_shader`. -/
def BorderRenderElement.has_shader (e : BorderRenderElement) : Bool :=
  e.inner.shader.isSome

/-- The concrete scenario of the spec: `area = gradientArea =
(0,0,100,50)`, `angle = 0`, `outputScale = 1`. -/
def scenarioParams : Parameters where
  scale := ⟨.val 1, .val 1⟩
  area := ⟨0, 0, 100, 50⟩
  gradient_area := ⟨0, 0, 100, 50⟩
  color_from := ⟨.val 0, .val 0, .val 0, .val 1⟩
  color_to := ⟨.val 1, .val 1, .val 1, .val 1⟩
  angle := .val 0
  geometry := ⟨0, 0, 100, 50⟩
  border_width := .val 0
  corner_radius := ⟨.val 0, .val 0, .val 0, .val 0⟩

/-- C1, counterexample: at the spec's concrete scenario the X component of
`grad_vec` is `-100`, not positive — `Vec2::from_angle(0) = (1, 0)` has a
non-positive Y component, so `update_inner` negates the projected vector. -/
theorem c1_counterexample :
    (resolve scenarioParams).grad_vec.1 = -100 ∧
    ¬ 0 < (resolve scenarioParams).grad_vec.1 := by
  have h : (resolve scenarioParams).grad_vec.1 = -100 := by
    simp only [resolve, grad_vec, grad_w, grad_h, scenarioParams, F32.toReal]
    rw [Real.cos_zero, Real.sin_zero]
    norm_num [gradVecCore]
  exact ⟨h, by rw [h]; norm_num⟩

/-- C1, amended: at the concrete scenario the gradient offset is `(0, 0)`
and `grad_vec` has zero Y component and magnitude 100 (the gradient area's
physical width, which is also the `grad_width` uniform) — but its X
component is negative (`-100`), because the direction vector's Y component
`sin 0 = 0` is non-positive and the code negates the projection. -/
theorem c1_amended :
    (resolve scenarioParams).grad_offset = (0, 0) ∧
    (resolve scenarioParams).grad_vec = (-100, 0) ∧
    (resolve scenarioParams).grad_width = 100 := by
  refine ⟨?_, ?_, ?_⟩
  · simp only [resolve, grad_offset, scenarioParams, F32.toReal]
    norm_num
  · simp only [resolve, grad_vec, grad_w, grad_h, scenarioParams, F32.toReal]
    rw [Real.cos_zero, Real.sin_zero]
    norm_num [gradVecCore, Prod.ext_iff]
  · simp only [resolve, grad_w, scenarioParams, F32.toReal]
    norm_num

/-- Negating the direction vector negates the computed gradient vector:
the quadrant-based diagonal mirroring and the final sign flip compose so
that opposite directions give exactly opposite projections. -/
lemma gradVecCore_neg (c s w h : ℝ) :
    gradVecCore (-c) (-s) w h = (-(gradVecCore c s w h).1, -(gradVecCore c s w h).2) := by
  simp only [gradVecCore]
  rcases lt_trichotomy s 0 with hs | hs | hs
  · -- s < 0: the direction points downward, the negated one upward
    have hB : s ≤ 0 := le_of_lt hs
    have hB' : ¬(-s ≤ 0) := by linarith
    rcases lt_trichotomy c 0 with hc | hc | hc
    · have hA : ¬((c < 0 ∧ 0 ≤ s) ∨ (0 ≤ c ∧ s < 0)) := by
        rintro (⟨h1, h2⟩ | ⟨h1, h2⟩) <;> linarith
      have hA' : ¬((-c < 0 ∧ 0 ≤ -s) ∨ (0 ≤ -c ∧ -s < 0)) := by
        rintro (⟨h1, h2⟩ | ⟨h1, h2⟩) <;> linarith
      rw [if_neg hA, if_neg hA', if_pos hB, if_neg hB']
      have hden : -c * -c + -s * -s = c * c + s * s := by ring
      rw [hden]
      simp only [Prod.mk.injEq]
      constructor <;> ring
    · subst hc
      have hA : ((0:ℝ) < 0 ∧ 0 ≤ s) ∨ ((0:ℝ) ≤ 0 ∧ s < 0) := Or.inr ⟨le_refl 0, hs⟩
      have hA' : ¬((-(0:ℝ) < 0 ∧ 0 ≤ -s) ∨ (0 ≤ -(0:ℝ) ∧ -s < 0)) := by
        rintro (⟨h1, h2⟩ | ⟨h1, h2⟩) <;> linarith
      rw [if_pos hA, if_neg hA', if_pos hB, if_neg hB']
      have hden : -(0:ℝ) * -0 + -s * -s = 0 * 0 + s * s := by ring
      rw [hden]
      simp only [Prod.mk.injEq]
      constructor <;> ring
    · have hA : ((c < 0 ∧ 0 ≤ s) ∨ (0 ≤ c ∧ s < 0)) := Or.inr ⟨le_of_lt hc, hs⟩
      have hA' : ((-c < 0 ∧ 0 ≤ -s) ∨ (0 ≤ -c ∧ -s < 0)) := Or.inl ⟨by linarith, by linarith⟩
      rw [if_pos hA, if_pos hA', if_pos hB, if_neg hB']
      have hden : -c * -c + -s * -s = c * c + s * s := by ring
      rw [hden]
      simp only [Prod.mk.injEq]
      constructor <;> ring
  · -- s = 0: both directions lie on the X axis and both are negated
    subst hs
    have hB : (0:ℝ) ≤ 0 := le_refl 0
    have hB' : -(0:ℝ) ≤ 0 := by norm_num
    rcases lt_trichotomy c 0 with hc | hc | hc
    · have hA : ((c < 0 ∧ 0 ≤ (0:ℝ)) ∨ (0 ≤ c ∧ (0:ℝ) < 0)) := Or.inl ⟨hc, le_refl 0⟩
      have hA' : ¬((-c < 0 ∧ 0 ≤ -(0:ℝ)) ∨ (0 ≤ -c ∧ -(0:ℝ) < 0)) := by
        rintro (⟨h1, h2⟩ | ⟨h1, h2⟩) <;> linarith
      rw [if_pos hA, if_neg hA', if_pos hB, if_pos hB']
      have hden : -c * -c + -(0:ℝ) * -0 = c * c + 0 * 0 := by ring
      rw [hden]
      simp only [Prod.mk.injEq]
      constructor <;> ring
    · subst hc
      have hA : ¬(((0:ℝ) < 0 ∧ 0 ≤ (0:ℝ)) ∨ ((0:ℝ) ≤ 0 ∧ (0:ℝ) < 0)) := by
        rintro (⟨h1, h2⟩ | ⟨h1, h2⟩) <;> linarith
      have hA' : ¬((-(0:ℝ) < 0 ∧ 0 ≤ -(0:ℝ)) ∨ ((0:ℝ) ≤ -0 ∧ -(0:ℝ) < 0)) := by
        rintro (⟨h1, h2⟩ | ⟨h1, h2⟩) <;> linarith
      rw [if_neg hA, if_neg hA', if_pos hB, if_pos hB']
      simp only [Prod.mk.injEq]
      constructor <;> ring
    · have hA : ¬((c < 0 ∧ 0 ≤ (0:ℝ)) ∨ (0 ≤ c ∧ (0:ℝ) < 0)) := by
        rintro (⟨h1, h2⟩ | ⟨h1, h2⟩) <;> linarith
      have hA' : ((-c < 0 ∧ 0 ≤ -(0:ℝ)) ∨ (0 ≤ -c ∧ -(0:ℝ) < 0)) :=
        Or.inl ⟨by linarith, by norm_num⟩
      rw [if_neg hA, if_pos hA', if_pos hB, if_pos hB']
      have hden : -c * -c + -(0:ℝ) * -0 = c * c + 0 * 0 := by ring
      rw [hden]
      simp only [Prod.mk.injEq]
      constructor <;> ring
  · -- 0 < s: the direction points upward, the negated one downward
    have hB : ¬(s ≤ 0) := by linarith
    have hB' : -s ≤ 0 := by linarith
    rcases lt_trichotomy c 0 with hc | hc | hc
    · have hA : ((c < 0 ∧ 0 ≤ s) ∨ (0 ≤ c ∧ s < 0)) := Or.inl ⟨hc, le_of_lt hs⟩
      have hA' : ((-c < 0 ∧ 0 ≤ -s) ∨ (0 ≤ -c ∧ -s < 0)) := Or.inr ⟨by linarith, by linarith⟩
      rw [if_pos hA, if_pos hA', if_neg hB, if_pos hB']
      have hden : -c * -c + -s * -s = c * c + s * s := by ring
      rw [hden]
      simp only [Prod.mk.injEq]
      constructor <;> ring
    · subst hc
      have hA : ¬(((0:ℝ) < 0 ∧ 0 ≤ s) ∨ ((0:ℝ) ≤ 0 ∧ s < 0)) := by
        rintro (⟨h1, h2⟩ | ⟨h1, h2⟩) <;> linarith
      have hA' : ((-(0:ℝ) < 0 ∧ 0 ≤ -s) ∨ (0 ≤ -(0:ℝ) ∧ -s < 0)) :=
        Or.inr ⟨by norm_num, by linarith⟩
      rw [if_neg hA, if_pos hA', if_neg hB, if_pos hB']
      have hden : -(0:ℝ) * -0 + -s * -s = 0 * 0 + s * s := by ring
      rw [hden]
      simp only [Prod.mk.injEq]
      constructor <;> ring
    · have hA : ¬((c < 0 ∧ 0 ≤ s) ∨ (0 ≤ c ∧ s < 0)) := by
        rintro (⟨h1, h2⟩ | ⟨h1, h2⟩) <;> linarith
      have hA' : ¬((-c < 0 ∧ 0 ≤ -s) ∨ (0 ≤ -c ∧ -s < 0)) := by
        rintro (⟨h1, h2⟩ | ⟨h1, h2⟩) <;> linarith
      rw [if_neg hA, if_neg hA', if_neg hB, if_pos hB']
      have hden : -c * -c + -s * -s = c * c + s * s := by ring
      rw [hden]
      simp only [Prod.mk.injEq]
      constructor <;> ring

/-- C4: resolving with angle θ + π produces a `grad_vec` that is the exact
negation (component-wise) of the one resolved at angle θ, all other
parameters equal (exact real arithmetic; `Vec2::from_angle(θ+π) =
(-cos θ, -sin θ)`). -/
theorem c4_theorem (p : Parameters) (θ : ℝ) :
    (resolve { p with angle := F32.val (θ + Real.pi) }).grad_vec =
      (-(resolve { p with angle := F32.val θ }).grad_vec.1,
       -(resolve { p with angle := F32.val θ }).grad_vec.2) := by
  simp only [resolve, grad_vec, grad_w, grad_h, F32.toReal]
  rw [Real.cos_add_pi, Real.sin_add_pi]
  exact gradVecCore_neg _ _ _ _

/-- A zero-size gradient area yields the zero gradient vector, whatever the
angle: the projected diagonal is `(0, 0)`. -/
lemma grad_vec_degenerate (p : Parameters) (hw : p.gradient_area.w = 0)
    (hh : p.gradient_area.h = 0) : grad_vec p = (0, 0) := by
  unfold grad_vec grad_w grad_h gradVecCore
  rw [hw, hh]
  norm_num

/-- C2: `update` called with parameters structurally equal (`==`) to the
stored ones returns the element unchanged — same commit counter, same
cached uniforms, same everything; and when they are not equal, the commit
counter advances and the uniforms are recomputed.  Recomputation happens
if and only if the parameters differ by structural equality. -/
theorem c2_theorem (e : BorderRenderElement) (p : Parameters) :
    (Parameters.req e.params p → BorderRenderElement.update e p = e) ∧
    (¬ Parameters.req e.params p →
      (BorderRenderElement.update e p).inner.commit = e.inner.commit + 1 ∧
      (BorderRenderElement.update e p).inner.resolved = some (resolve p)) := by
  constructor
  · intro h
    simp [BorderRenderElement.update, h]
  · intro h
    simp [BorderRenderElement.update, h, BorderRenderElement.update_inner,
      ShaderRenderElement.update]

/-- C2, witness: a same-parameters `update` on the empty element is a
no-op, and an `update` with a changed angle bumps the commit counter and
recomputes the uniforms. -/
theorem c2_witness :
    BorderRenderElement.update BorderRenderElement.empty Parameters.default =
      BorderRenderElement.empty ∧
    (BorderRenderElement.update BorderRenderElement.empty
        { Parameters.default with angle := F32.val 1 }).inner.commit =
      BorderRenderElement.empty.inner.commit + 1 ∧
    (BorderRenderElement.update BorderRenderElement.empty
        { Parameters.default with angle := F32.val 1 }).inner.resolved =
      some (resolve { Parameters.default with angle := F32.val 1 }) := by
  refine ⟨(c2_theorem _ _).1 ?_, (c2_theorem _ _).2 ?_⟩
  · simp [Parameters.req, Scale2.req, Rgba.req, CornerRadius.req, F32.req,
      Parameters.default, BorderRenderElement.empty]
  · simp [Parameters.req, Scale2.req, Rgba.req, CornerRadius.req, F32.req,
      Parameters.default, BorderRenderElement.empty]

/-- The new parameter set differs from the stored one in exactly one
field: every other field is carried over unchanged and that one field is
not `==`-equal. -/
def DiffersInOneField (p q : Parameters) : Prop :=
  (q = { p with scale := q.scale } ∧ ¬ Scale2.req p.scale q.scale) ∨
  (q = { p with area := q.area } ∧ p.area ≠ q.area) ∨
  (q = { p with gradient_area := q.gradient_area } ∧ p.gradient_area ≠ q.gradient_area) ∨
  (q = { p with color_from := q.color_from } ∧ ¬ Rgba.req p.color_from q.color_from) ∨
  (q = { p with color_to := q.color_to } ∧ ¬ Rgba.req p.color_to q.color_to) ∨
  (q = { p with angle := q.angle } ∧ ¬ F32.req p.angle q.angle) ∨
  (q = { p with geometry := q.geometry } ∧ p.geometry ≠ q.geometry) ∨
  (q = { p with border_width := q.border_width } ∧ ¬ F32.req p.border_width q.border_width) ∨
  (q = { p with corner_radius := q.corner_radius } ∧
    ¬ CornerRadius.req p.corner_radius q.corner_radius)

/-- C3, amended: calling `update` with a parameter set that differs from
the stored one in exactly one field always advances the commit counter and
recomputes (re-stores) the uniforms.  (The original claim's stronger
conclusion — that at least one resolved uniform value changes — fails; see
the counterexample.) -/
theorem c3_theorem (e : BorderRenderElement) (q : Parameters)
    (h : DiffersInOneField e.params q) :
    ¬ Parameters.req e.params q ∧
    (BorderRenderElement.update e q).inner.commit = e.inner.commit + 1 ∧
    (BorderRenderElement.update e q).inner.resolved = some (resolve q) := by
  have hne : ¬ Parameters.req e.params q := by
    intro hreq
    obtain ⟨h1, h2, h3, h4, h5, h6, h7, h8, h9⟩ := hreq
    rcases h with ⟨_, hd⟩|⟨_, hd⟩|⟨_, hd⟩|⟨_, hd⟩|⟨_, hd⟩|⟨_, hd⟩|⟨_, hd⟩|⟨_, hd⟩|⟨_, hd⟩
    exacts [hd h1, hd h2, hd h3, hd h4, hd h5, hd h6, hd h7, hd h8, hd h9]
  refine ⟨hne, ?_, ?_⟩ <;>
    simp [BorderRenderElement.update, hne, BorderRenderElement.update_inner,
      ShaderRenderElement.update]

/-- C3, witness: altering only the angle of the empty element's default
parameters advances the commit counter. -/
theorem c3_witness :
    DiffersInOneField BorderRenderElement.empty.params
      { Parameters.default with angle := F32.val 1 } ∧
    (BorderRenderElement.update BorderRenderElement.empty
        { Parameters.default with angle := F32.val 1 }).inner.commit =
      BorderRenderElement.empty.inner.commit + 1 := by
  have h : DiffersInOneField BorderRenderElement.empty.params
      { Parameters.default with angle := F32.val 1 } := by
    refine Or.inr (Or.inr (Or.inr (Or.inr (Or.inr (Or.inl ⟨rfl, ?_⟩))))) 
    simp [BorderRenderElement.empty, Parameters.default, F32.req]
  exact ⟨h, (c3_theorem BorderRenderElement.empty _ h).2.1⟩

/-- C3, counterexample to the original claim: with a zero-size gradient
area, changing only the angle (0 → 1 rad) is a one-field difference, yet
the recomputed uniforms are value-identical to the cached ones — no
resolved uniform changes, because every uniform except `grad_vec` ignores
the angle and `grad_vec` is `(0, 0)` for a degenerate gradient area. -/
theorem c3_counterexample :
    DiffersInOneField (BorderRenderElement.new 0 Parameters.default).params
      { Parameters.default with angle := F32.val 1 } ∧
    (BorderRenderElement.update (BorderRenderElement.new 0 Parameters.default)
        { Parameters.default with angle := F32.val 1 }).inner.resolved =
      (BorderRenderElement.new 0 Parameters.default).inner.resolved := by
  have hne : ¬ Parameters.req Parameters.default
      { Parameters.default with angle := F32.val 1 } := by
    simp [Parameters.req, Scale2.req, Rgba.req, CornerRadius.req, F32.req, Parameters.default]
  have hres : resolve { Parameters.default with angle := F32.val 1 } =
      resolve Parameters.default := by
    have hg : grad_vec { Parameters.default with angle := F32.val 1 } =
        grad_vec Parameters.default := by
      rw [grad_vec_degenerate _ rfl rfl, grad_vec_degenerate _ rfl rfl]
    simp [resolve, hg, grad_offset, grad_w, grad_h, input_to_geo, geo_size,
      area_loc, area_size, geo_loc]
  constructor
  · refine Or.inr (Or.inr (Or.inr (Or.inr (Or.inr (Or.inl ⟨rfl, ?_⟩)))))
    simp [BorderRenderElement.new, BorderRenderElement.update_inner, Parameters.default, F32.req]
  · simp [BorderRenderElement.update, BorderRenderElement.new, BorderRenderElement.update_inner,
      ShaderRenderElement.update, ShaderRenderElement.update_shader, ShaderRenderElement.empty,
      hne, hres]

/-- C9: `update_shader` (for any shader reference, `none` included)
swaps only the active shader program reference: the cached parameters, the
commit counter and the stored uniforms are untouched, and no uniform
recomputation happens. -/
theorem c9_theorem (e : BorderRenderElement) (sh : Option ℕ) :
    (BorderRenderElement.update_shader e sh).params = e.params ∧
    (BorderRenderElement.update_shader e sh).inner.commit = e.inner.commit ∧
    (BorderRenderElement.update_shader e sh).inner.resolved = e.inner.resolved ∧
    (BorderRenderElement.update_shader e sh).inner.shader = sh :=
  ⟨rfl, rfl, rfl, rfl⟩

/-- Some floating-point field of the parameters is NaN. -/
def Parameters.hasNaN (p : Parameters) : Prop :=
  p.scale.x = F32.nan ∨ p.scale.y = F32.nan ∨
  p.color_from.r = F32.nan ∨ p.color_from.g = F32.nan ∨
  p.color_from.b = F32.nan ∨ p.color_from.a = F32.nan ∨
  p.color_to.r = F32.nan ∨ p.color_to.g = F32.nan ∨
  p.color_to.b = F32.nan ∨ p.color_to.a = F32.nan ∨
  p.angle = F32.nan ∨ p.border_width = F32.nan ∨
  p.corner_radius.top_left = F32.nan ∨ p.corner_radius.top_right = F32.nan ∨
  p.corner_radius.bottom_right = F32.nan ∨ p.corner_radius.bottom_left = F32.nan

/-- C10: when any float field of the stored parameters is NaN, calling
`update` with the very same (bitwise-identical) parameter value does not
take the no-op path: the structural equality fails (IEEE `NaN ≠ NaN`), the
parameters are re-stored, the uniforms are recomputed and the commit
counter advances on every such call. -/
theorem c10_theorem (e : BorderRenderElement) (h : e.params.hasNaN) :
    ¬ Parameters.req e.params e.params ∧
    (BorderRenderElement.update e e.params).inner.commit = e.inner.commit + 1 ∧
    (BorderRenderElement.update e e.params).inner.resolved = some (resolve e.params) := by
  have hne : ¬ Parameters.req e.params e.params := by
    intro hreq
    rcases h with hh|hh|hh|hh|hh|hh|hh|hh|hh|hh|hh|hh|hh|hh|hh|hh <;>
      simp [Parameters.req, Scale2.req, Rgba.req, CornerRadius.req, F32.req, hh] at hreq
  refine ⟨hne, ?_, ?_⟩ <;>
    simp [BorderRenderElement.update, hne, BorderRenderElement.update_inner,
      ShaderRenderElement.update]

/-- Default parameters with a NaN angle. -/
def nanParams : Parameters := { Parameters.default with angle := F32.nan }

/-- C10, witness: an element storing a NaN angle re-runs the uniform
computation when updated with its own stored parameters. -/
theorem c10_witness :
    ¬ Parameters.req (BorderRenderElement.new 0 nanParams).params
        (BorderRenderElement.new 0 nanParams).params ∧
    (BorderRenderElement.update (BorderRenderElement.new 0 nanParams)
        (BorderRenderElement.new 0 nanParams).params).inner.commit =
      (BorderRenderElement.new 0 nanParams).inner.commit + 1 ∧
    (BorderRenderElement.update (BorderRenderElement.new 0 nanParams)
        (BorderRenderElement.new 0 nanParams).params).inner.resolved =
      some (resolve (BorderRenderElement.new 0 nanParams).params) :=
  c10_theorem _ (by
    simp [BorderRenderElement.new, BorderRenderElement.update_inner, nanParams,
      Parameters.hasNaN])

/-- C8: degenerate inputs do not fault the resolver.  The resolver is a
total function; a zero-width gradient area yields a zero `grad_width`, a
zero-size gradient area yields the zero gradient vector, a zero-size area
yields a zero-size destination rectangle (no fragments, a harmless
invisible result), and the denominator of the gradient projection
(`grad_dir.dot(grad_dir)`) is always 1, never zero. -/
theorem c8_theorem (p : Parameters) :
    (p.gradient_area.w = 0 → (resolve p).grad_width = 0) ∧
    (p.gradient_area.w = 0 → p.gradient_area.h = 0 → (resolve p).grad_vec = (0, 0)) ∧
    ((p.area.w = 0 ∨ p.area.h = 0) →
      (resolve p).dst_area.w = 0 ∨ (resolve p).dst_area.h = 0) ∧
    Real.cos p.angle.toReal * Real.cos p.angle.toReal +
      Real.sin p.angle.toReal * Real.sin p.angle.toReal = 1 := by
  refine ⟨?_, ?_, ?_, ?_⟩
  · intro hw
    simp [resolve, grad_w, hw]
  · intro hw hh
    simpa [resolve] using grad_vec_degenerate p hw hh
  · intro h
    simpa [resolve] using h
  · linear_combination Real.cos_sq_add_sin_sq p.angle.toReal

/-- C8, witness: the all-zero default parameters (zero-size area and
gradient area) resolve to the harmless degenerate result. -/
theorem c8_witness :
    (resolve Parameters.default).grad_width = 0 ∧
    (resolve Parameters.default).grad_vec = (0, 0) ∧
    ((resolve Parameters.default).dst_area.w = 0 ∨
      (resolve Parameters.default).dst_area.h = 0) :=
  ⟨(c8_theorem Parameters.default).1 rfl,
   (c8_theorem Parameters.default).2.1 rfl rfl,
   (c8_theorem Parameters.default).2.2.1 (Or.inl rfl)⟩

/-- Rounding an integer-valued real is the identity. -/
lemma f64round_intCast (n : ℤ) : f64round (n : ℝ) = n := by
  unfold f64round
  split
  · rw [show (-(n:ℝ)) = ((-n : ℤ) : ℝ) by push_cast; ring, round_intCast]
    ring
  · exact round_intCast n

/-- At output scale 1, physical rounding of an integer logical coordinate
is the identity. -/
lemma roundPhys_one (v : ℤ) : roundPhys v 1 = (v : ℝ) := by
  unfold roundPhys
  rw [mul_one, f64round_intCast]

/-- `f64round 1 = 1`. -/
lemma f64round_one : f64round 1 = 1 := by
  rw [show (1:ℝ) = ((1:ℤ):ℝ) by norm_num, f64round_intCast]

/-- C6: the resolved border width is the logical border width multiplied
by the X component of the output scale, and the resolved corner radii are
the logical radii scaled by the X component only; changing the Y scale
component (non-uniform scaling included) leaves both uniforms unchanged. -/
theorem c6_theorem (p : Parameters) (sy : F32) :
    (resolve p).border_width = p.border_width.toReal * p.scale.x.toReal ∧
    (resolve p).outer_radius = p.corner_radius.scaled_by p.scale.x.toReal ∧
    (resolve { p with scale := ⟨p.scale.x, sy⟩ }).border_width = (resolve p).border_width ∧
    (resolve { p with scale := ⟨p.scale.x, sy⟩ }).outer_radius = (resolve p).outer_radius :=
  ⟨rfl, rfl, rfl, rfl⟩

/-- C5, amended: for two positive output scales at which the geometry
width scales to a whole number of physical pixels (so
`to_physical_precise_round` does not perturb it), the ratio of the
`border_width` uniform to the `geo_size` width uniform is the same at both
scales.  (Without the whole-pixel condition the rounding of `geo_size`
breaks the ratio; see the counterexample.) -/
theorem c5_amended (p : Parameters) (s1 s2 : ℝ) (h1 : 0 < s1) (h2 : 0 < s2)
    (hr1 : ((f64round ((p.geometry.w : ℝ) * s1) : ℤ) : ℝ) = (p.geometry.w : ℝ) * s1)
    (hr2 : ((f64round ((p.geometry.w : ℝ) * s2) : ℤ) : ℝ) = (p.geometry.w : ℝ) * s2) :
    (resolve { p with scale := ⟨F32.val s1, F32.val s1⟩ }).border_width /
      ((resolve { p with scale := ⟨F32.val s1, F32.val s1⟩ }).geo_size).1 =
    (resolve { p with scale := ⟨F32.val s2, F32.val s2⟩ }).border_width /
      ((resolve { p with scale := ⟨F32.val s2, F32.val s2⟩ }).geo_size).1 := by
  simp only [resolve, geo_size, roundPhys, F32.toReal]
  rw [hr1, hr2]
  rcases eq_or_ne (p.geometry.w : ℝ) 0 with hg | hg
  · simp [hg]
  · field_simp
    ring

/-- A 1×1-geometry, border-width-1 parameter set exercising the rounding
of `geo_size`. -/
def c5Params : Parameters :=
  { Parameters.default with geometry := ⟨0, 0, 1, 1⟩, border_width := F32.val 1 }

/-- C5, witness: at scales 1 and 2 the geometry width scales exactly and
the border-width / geo-width ratio agrees. -/
theorem c5_witness :
    (0:ℝ) < 1 ∧ (0:ℝ) < 2 ∧
    ((f64round ((c5Params.geometry.w : ℝ) * 1) : ℤ) : ℝ) = (c5Params.geometry.w : ℝ) * 1 ∧
    ((f64round ((c5Params.geometry.w : ℝ) * 2) : ℤ) : ℝ) = (c5Params.geometry.w : ℝ) * 2 ∧
    (resolve { c5Params with scale := ⟨F32.val 1, F32.val 1⟩ }).border_width /
      ((resolve { c5Params with scale := ⟨F32.val 1, F32.val 1⟩ }).geo_size).1 =
    (resolve { c5Params with scale := ⟨F32.val 2, F32.val 2⟩ }).border_width /
      ((resolve { c5Params with scale := ⟨F32.val 2, F32.val 2⟩ }).geo_size).1 := by
  have hw : c5Params.geometry.w = (1 : ℤ) := rfl
  have hr1 : ((f64round ((c5Params.geometry.w : ℝ) * 1) : ℤ) : ℝ) =
      (c5Params.geometry.w : ℝ) * 1 := by
    rw [hw, mul_one, f64round_intCast]
  have hr2 : ((f64round ((c5Params.geometry.w : ℝ) * 2) : ℤ) : ℝ) =
      (c5Params.geometry.w : ℝ) * 2 := by
    rw [hw, show (((1:ℤ) : ℝ)) * 2 = ((2 : ℤ) : ℝ) by norm_num, f64round_intCast]
  exact ⟨one_pos, two_pos, hr1, hr2, c5_amended c5Params 1 2 one_pos two_pos hr1 hr2⟩

/-- C5, counterexample to the original claim: with geometry width 1 and
border width 1, the ratio at scale 1 is `1/1 = 1` but at scale 3/2 it is
`1.5 / round(1.5) = 1.5 / 2 = 3/4`: the `geo_size` uniform is rounded to
whole physical pixels while `border_width` scales linearly, so the ratio
is not invariant across arbitrary positive scales. -/
theorem c5_counterexample :
    (resolve { c5Params with scale := ⟨F32.val 1, F32.val 1⟩ }).border_width /
      ((resolve { c5Params with scale := ⟨F32.val 1, F32.val 1⟩ }).geo_size).1 = 1 ∧
    (resolve { c5Params with scale := ⟨F32.val (3/2), F32.val (3/2)⟩ }).border_width /
      ((resolve { c5Params with scale := ⟨F32.val (3/2), F32.val (3/2)⟩ }).geo_size).1
      = 3/4 ∧
    (1 : ℝ) ≠ 3/4 := by
  refine ⟨?_, ?_, by norm_num⟩
  · simp only [resolve, geo_size, roundPhys, c5Params, Parameters.default, F32.toReal]
    norm_num
    exact f64round_one
  · simp only [resolve, geo_size, roundPhys, c5Params, Parameters.default, F32.toReal]
    rw [show (((1:ℤ) : ℝ)) * (3/2) = 3/2 by norm_num,
      show f64round ((3:ℝ)/2) = 2 from by
        unfold f64round
        rw [if_neg (by norm_num)]
        norm_num [round_eq]]
    norm_num

/-- C7: when the rounded physical area size has no zero component, the
`input_to_geo` matrix is exactly
`Mat3::from_scale(area_size) * Mat3::from_translation((area_loc - geo_loc)
/ area_size)` — scale composed with translation in that fixed order — and
it maps any point `q` of the unit draw space to
`area_size * q + (area_loc - geo_loc)`. -/
theorem c7_theorem (p : Parameters) (q : ℝ × ℝ)
    (h1 : (area_size p).1 ≠ 0) (h2 : (area_size p).2 ≠ 0) :
    (resolve p).input_to_geo =
      Mat3R.mul (Mat3R.fromScale (area_size p))
        (Mat3R.fromTranslation
          (((area_loc p).1 - (geo_loc p).1) / (area_size p).1,
           ((area_loc p).2 - (geo_loc p).2) / (area_size p).2)) ∧
    Mat3R.transformPoint2 (resolve p).input_to_geo q =
      ((area_size p).1 * q.1 + ((area_loc p).1 - (geo_loc p).1),
       (area_size p).2 * q.2 + ((area_loc p).2 - (geo_loc p).2)) := by
  refine ⟨rfl, ?_⟩
  simp only [resolve, input_to_geo, Mat3R.mul, Mat3R.mulVec, Mat3R.fromScale,
    Mat3R.fromTranslation, Mat3R.transformPoint2]
  simp only [Prod.mk.injEq]
  constructor <;> field_simp

/-- C7, witness: at the concrete scenario (100×50 area at scale 1) the
transform maps the unit-square corner `(1, 1)` to `(100, 50)`. -/
theorem c7_witness :
    (area_size scenarioParams).1 ≠ 0 ∧ (area_size scenarioParams).2 ≠ 0 ∧
    Mat3R.transformPoint2 (resolve scenarioParams).input_to_geo (1, 1) = (100, 50) := by
  have h1 : (area_size scenarioParams).1 ≠ 0 := by
    simp [area_size, scenarioParams, roundPhys_one, F32.toReal]
  have h2 : (area_size scenarioParams).2 ≠ 0 := by
    simp [area_size, scenarioParams, roundPhys_one, F32.toReal]
  refine ⟨h1, h2, ?_⟩
  rw [(c7_theorem scenarioParams (1, 1) h1 h2).2]
  simp [area_size, area_loc, geo_loc, scenarioParams, roundPhys_one, F32.toReal]
